import Mathlib

/-!
Verification development for the menu-acquisition pipeline of the
rwth-fressbot repository: a shallow embedding of the menu model and its
HTML rendering (src/model/menu.rs), the freshness-bounded LRU cache in
front of the fetcher (src/domain/fetch/cache.rs), and the HTML-to-menu
extractor (src/domain/fetch/html_fetcher.rs), together with theorems
checking the specified behaviour against these definitions.

Modelling conventions: machine strings are Lean `String`s; `Instant` time
points and `Duration`s are `Nat`s (an `elapsed` value is a truncated
subtraction, which agrees with the monotone clock); the network layer is
abstracted by passing the already-retrieved document (respectively, the
outcome of the combined fetch+extract step) as an argument; `anyhow`
errors are an explicit error inductive.
-/

/-! ## Canteen (src/domain/model/canteen.rs) -/

/-- The closed enumeration of the nine dining sites
(`src/domain/model/canteen.rs`). The source variant names `Jülich` and
`Süd` are written `Juelich` and `Sued` here because Lean identifiers do
not admit the umlaut. -/
inductive Canteen where
  | Academica
  | Ahorn
  | Bayernallee
  | Bistro
  | Eupener
  | Juelich
  | KMAC
  | Sued
  | Vita
deriving DecidableEq, Repr

/-! ## Dates

`chrono::NaiveDate` values are embedded as year/month/day triples; the
only operations the extractor performs on them are construction by
parsing `%d.%m.%Y` (with calendar validation, as `chrono` does) and
equality comparison. -/

/-- A calendar date (embedding of `chrono::NaiveDate`). -/
structure NDate where
  year : Nat
  month : Nat
  day : Nat
deriving DecidableEq, Repr

/-- Gregorian leap-year rule, as used by `chrono` for date validation. -/
def isLeapYear (y : Nat) : Bool :=
  y % 4 = 0 && (y % 100 ≠ 0 || y % 400 = 0)

/-- Number of days of a month in a year (for `chrono`-style validation). -/
def daysInMonth (y m : Nat) : Nat :=
  if m = 2 then (if isLeapYear y then 29 else 28)
  else if m = 4 || m = 6 || m = 9 || m = 11 then 30
  else 31

/-- Validity of a year/month/day combination; `NaiveDate::parse_from_str`
fails on invalid combinations. -/
def validDate (y m d : Nat) : Bool :=
  1 ≤ m && m ≤ 12 && 1 ≤ d && d ≤ daysInMonth y m

/-! ## String primitives

The Rust `str` operations the source relies on are re-implemented here
over the character list of a `String`, so that every definition computes
by kernel reduction; each is documented with the `str` method it
embeds. -/

/-- ASCII lowercasing of one character (`u8::to_ascii_lowercase`). -/
def lowerChar (c : Char) : Char :=
  if 65 ≤ c.toNat && c.toNat ≤ 90 then Char.ofNat (c.toNat + 32) else c

/-- ASCII lowercasing of a string (`str::to_ascii_lowercase`, also the
case folding scraper applies for ASCII-case-insensitive matching). -/
def asciiLower (s : String) : String := ⟨s.data.map lowerChar⟩

/-- Whitespace trimming (`str::trim`; the whitespace on the page is
ASCII, for which Lean's `Char.isWhitespace` agrees with Rust's
`char::is_whitespace`). -/
def trimStr (s : String) : String :=
  ⟨((s.data.dropWhile Char.isWhitespace).reverse.dropWhile
      Char.isWhitespace).reverse⟩

/-- Accumulator loop of `splitChar`: `acc` holds the current segment
reversed. -/
def splitCharAux (sep : Char) : List Char → List Char → List String
  | [], acc => [String.mk acc.reverse]
  | c :: cs, acc =>
    if c = sep then String.mk acc.reverse :: splitCharAux sep cs []
    else splitCharAux sep cs (c :: acc)

/-- `str::split` on a one-character pattern: the segments between
occurrences of `sep`, empty segments included, at least one segment
always. -/
def splitChar (sep : Char) (s : String) : List String :=
  splitCharAux sep s.data []

/-- Rust's `char::is_ascii_whitespace`: space, tab, newline, form feed
or carriage return. -/
def isAsciiWs (c : Char) : Bool :=
  c = ' ' || c = '\t' || c = '\n' || c = '\x0c' || c = '\r'

/-- Accumulator loop of `splitAsciiWhitespace`: `acc` holds the current
token reversed; whitespace closes a token, empty tokens are never
produced. -/
def splitWsAux : List Char → List Char → List String
  | [], [] => []
  | [], acc => [String.mk acc.reverse]
  | c :: cs, acc =>
    if isAsciiWs c then
      match acc with
      | [] => splitWsAux cs []
      | _ :: _ => String.mk acc.reverse :: splitWsAux cs []
    else splitWsAux cs (c :: acc)

/-- Rust's `str::split_ascii_whitespace`: the non-empty tokens between
ASCII-whitespace runs. -/
def splitAsciiWhitespace (s : String) : List String :=
  splitWsAux s.data []

/-- Byte-wise lexicographic comparison of character lists; on UTF-8
encoded strings the byte order Rust's `String::cmp` uses coincides with
this code-point order. -/
def charListLe : List Char → List Char → Bool
  | [], _ => true
  | _ :: _, [] => false
  | a :: as, b :: bs =>
    if a < b then true
    else if b < a then false
    else charListLe as bs

/-- The `String::cmp`-induced `≤` on strings, byte-wise lexicographic. -/
def strLe (a b : String) : Bool := charListLe a.data b.data

/-! ## Menu model (src/model/menu.rs) -/

/-- The closed `Label` enumeration of dietary markers
(`src/model/menu.rs`). -/
inductive Label where
  | Beef
  | Chicken
  | Fish
  | Pork
  | Vegan
  | Veggie
deriving DecidableEq, Repr

/-- The `strum` `Display` serialization of a `Label`: its emoji. -/
def labelStr : Label → String
  | .Beef => "🐮"
  | .Chicken => "🐔"
  | .Fish => "🐟"
  | .Pork => "🐷"
  | .Vegan => "🥑"
  | .Veggie => "🌱"

/-- A dish as declared in `src/model/menu.rs`: the `price` field is a
required `String` there (the fetch pipeline, by contrast, computes an
optional price; see `FetchedDish`). -/
structure Dish where
  name : String
  ingreds : List String
  labels : List Label
  price : String
deriving DecidableEq, Repr

/-- Rendering of one dish, `Dish::fmt_html` in `src/model/menu.rs`:
name in strong markup, a bar separator and the comma-joined ingredients
when any exist, the space-joined label emojis when any exist, and the
price, written unconditionally. `write!` into a `String` cannot fail, so
the `fmt::Result` wrapper is dropped. -/
def Dish.fmt_html (d : Dish) : String :=
  "<strong>" ++ d.name ++ "</strong>" ++
  (if d.ingreds.isEmpty then "" else " | ") ++
  String.intercalate ", " d.ingreds ++
  (if d.labels.isEmpty then ""
   else " " ++ String.intercalate " " (d.labels.map labelStr)) ++
  " – <strong>" ++ d.price ++ "</strong>"

/-- An extras line, `MenuExtra` in `src/model/menu.rs`. -/
structure MenuExtra where
  category : String
  extra : String
deriving DecidableEq, Repr

/-- Rendering of one extras line, `MenuExtra::fmt_html`. -/
def MenuExtra.fmt_html (e : MenuExtra) : String :=
  "<em>" ++ e.category ++ "</em>: " ++ e.extra

/-- A menu as declared in `src/model/menu.rs`: a map from category name
to the dishes of that category plus the list of extras. The `HashMap` is
embedded as an association list (its iteration order is arbitrary, and
`fmt_html` sorts by key before iterating; theorems about the rendering
quantify over reorderings of this list where needed). -/
structure Menu where
  dishes : List (String × List Dish)
  extras : List MenuExtra
deriving DecidableEq, Repr

/-- The fixed category-to-emoji lookup inlined in `Menu::fmt_html`. -/
def categoryEmoji (categ : String) : String :=
  if categ = "Klassiker" then "🍴"
  else if categ = "Vegetarisch" then "🥦"
  else if categ = "Tellergericht" then "🍲"
  else if categ = "Burger" then "🍔"
  else if categ = "Wok" then "🥡"
  else if categ = "Pizza" then "🍕"
  else ""

/-- The body of the category loop of `Menu::fmt_html` for the category at
sorted position `n` out of `total` categories: an empty dish list is
skipped before anything is written; otherwise the heading (with its
emoji when the lookup knows the category), one line per dish, and a
separating blank line unless `n` is the last index. -/
def emitCategory (total n : Nat) (categ : String) (dishes : List Dish) : String :=
  if dishes.isEmpty then ""
  else
    "<em>" ++ categ ++ "</em>" ++
    (let emoji := categoryEmoji categ
     if emoji = "" then "" else " " ++ emoji) ++ "\n" ++
    String.join (dishes.map (fun d => d.fmt_html ++ "\n")) ++
    (if n + 1 < total then "\n" else "")

/-- The comparator of the category sort in `Menu::fmt_html`,
`k1.cmp(k2)` on the category keys: byte-wise lexicographic order of the
key strings. -/
def dishLe (a b : String × List Dish) : Prop := strLe a.1 b.1 = true

instance : DecidableRel dishLe := fun a b => instDecidableEqBool (strLe a.1 b.1) true

/-- Rendering of a whole menu, `Menu::fmt_html` in `src/model/menu.rs`:
the categories are iterated sorted by key (`sorted_by(k1.cmp(k2))`,
a stable sort — the `HashMap` keys are unique, so any sort by key
produces the same sequence), each one emitted by `emitCategory` with its
enumeration index, and the extras follow, each on a fresh line. -/
def Menu.fmt_html (m : Menu) : String :=
  let sorted := m.dishes.insertionSort dishLe
  String.join (sorted.enum.map (fun p => emitCategory m.dishes.length p.1 p.2.1 p.2.2)) ++
  String.join (m.extras.map (fun e => "\n" ++ e.fmt_html))

/-! ## Fetcher errors (src/domain/fetch/mod.rs)

`FetcherError` has the two declared variants; the fetch pipeline also
produces ad-hoc `anyhow!` message errors for malformed rows, transport
errors from the HTTP client, and two `unwrap` calls that can panic, so
the embedded error type carries those as extra constructors in order to
keep every function total. -/

/-- Errors of the fetch pipeline: the `FetcherError` enum of
`src/domain/fetch/mod.rs` (`CanteenClosed`, `ElementNotFound`), plus the
`anyhow!` string errors of `html_fetcher.rs`, transport failures, and a
marker for the `unwrap` panic reachable on a whitespace-only category
cell. -/
inductive FetcherError where
  | canteenClosed (canteen : Canteen) (date : NDate)
  | elementNotFound (tag : String) (cls : List String)
  | msg (s : String)
  | transport (s : String)
  | panicked
deriving DecidableEq, Repr

/-! ## The dish value built by the extractor

`parse_menu_dish` computes the price as an `Option<String>` and passes it
to `Dish::new`, whose declaration in `src/model/menu.rs` requires a plain
`String` — the price inconsistency flagged by the specification. The
dish value constructed by the fetch pipeline is therefore embedded as its
own structure carrying the optional price exactly as computed. -/

/-- The dish value assembled by `HtmlMenuFetcher::parse_menu_dish`, with
the price as the `Option<String>` the source computes. -/
structure FetchedDish where
  name : String
  ingreds : List String
  labels : List Label
  price : Option String
deriving DecidableEq, Repr

/-- The menu value returned by the extractor: the category map (embedded
as an association list in first-insertion order) and the extras. -/
structure FetchedMenu where
  dishes : List (String × List FetchedDish)
  extras : List MenuExtra
deriving DecidableEq, Repr

/-! ## Cache layer (src/domain/fetch/cache.rs)

The `lru::LruCache` is embedded as an association list ordered from
most-recently-used (head) to least-recently-used (last), with the
capacity passed explicitly. `get` promotes a found key to the head;
`put` inserts at the head, evicting the last element when a new key
would exceed the capacity. The `Mutex` is embedded as a `poisoned` flag:
when it is set, both lock acquisitions of a call fail and the
`.ok()`-guarded cache interactions are skipped. -/

/-- The cache key: the `(Canteen, chrono::NaiveDate)` pair. -/
abbrev CacheKey := Canteen × NDate

/-- A cache entry (`CacheEntry<V>` in `src/domain/fetch/cache.rs`):
a value, the creation instant, and the freshness duration. -/
structure CacheEntry (V : Type) where
  val : V
  created : Nat
  fresh_dur : Nat
deriving DecidableEq, Repr

/-- `CacheEntry::is_fresh`: the elapsed time since creation is at most
the freshness duration. -/
def CacheEntry.is_fresh (e : CacheEntry V) (now : Nat) : Bool :=
  now - e.created ≤ e.fresh_dur

/-- `CacheEntry::is_stale`: negation of `is_fresh`. -/
def CacheEntry.is_stale (e : CacheEntry V) (now : Nat) : Bool :=
  ! e.is_fresh now

/-- Plain lookup in the LRU association list (first pair with the key). -/
def lruLookup (k : CacheKey) (c : List (CacheKey × CacheEntry V)) :
    Option (CacheEntry V) :=
  (c.find? (fun p => decide (p.1 = k))).map (fun p => p.2)

/-- Removal of a key from the LRU association list. -/
def lruRemove (k : CacheKey) (c : List (CacheKey × CacheEntry V)) :
    List (CacheKey × CacheEntry V) :=
  c.filter (fun p => decide (p.1 ≠ k))

/-- `LruCache::get`: when the key is present, return its entry and the
cache with that key promoted to most-recently-used (the `lru` crate's
`get` takes `&mut self` and moves the key to the head of the list). -/
def lruGet (k : CacheKey) (c : List (CacheKey × CacheEntry V)) :
    Option (CacheEntry V × List (CacheKey × CacheEntry V)) :=
  match c.find? (fun p => decide (p.1 = k)) with
  | none => none
  | some p => some (p.2, (k, p.2) :: lruRemove k c)

/-- `LruCache::put`: an existing key is updated and promoted; a new key
is inserted at the head, evicting the least-recently-used (last) entry
first when the cache is at capacity. -/
def lruPut (cap : Nat) (k : CacheKey) (e : CacheEntry V)
    (c : List (CacheKey × CacheEntry V)) : List (CacheKey × CacheEntry V) :=
  if (lruLookup k c).isSome then (k, e) :: lruRemove k c
  else if cap ≤ c.length then (k, e) :: c.dropLast
  else (k, e) :: c

/-- Result of one `HtmlMenuFetcherWithCache::fetch_daily_menu` call: the
returned value or error, the cache contents afterwards, and how many
times the inner fetcher (network fetch + extraction) was invoked. -/
structure FetchOutcome (V : Type) where
  result : Except FetcherError V
  cache : List (CacheKey × CacheEntry V)
  fetches : Nat

namespace HtmlMenuFetcherWithCache

/-- `HtmlMenuFetcherWithCache::fetch_and_insert`: invoke the inner
fetcher; on error propagate it (the `?` operator returns before any
cache interaction); on success store a new entry under the key — unless
the lock cannot be acquired (`poisoned`), in which case the result is
returned without caching. `fr` is the outcome of the inner
`fetcher.fetch_daily_menu(day, canteen)` call and `now` the instant at
which the entry timestamp is taken. -/
def fetch_and_insert (poisoned : Bool)
    (cache : List (CacheKey × CacheEntry V)) (cap fresh_dur now : Nat)
    (day : NDate) (canteen : Canteen) (fr : Except FetcherError V) :
    FetchOutcome V :=
  match fr with
  | .error e => ⟨.error e, cache, 1⟩
  | .ok menu =>
    let cache' :=
      if poisoned then cache
      else lruPut cap (canteen, day) ⟨menu, now, fresh_dur⟩ cache
    ⟨.ok menu, cache', 1⟩

/-- `HtmlMenuFetcherWithCache::fetch_daily_menu`: under a failed lock the
cached-result computation is skipped and the call falls through to
`fetch_and_insert`; otherwise the key is looked up with the promoting
`get`, a fresh entry's value is returned directly (no fetch), and a
miss or a stale entry falls through to `fetch_and_insert` (with the
promotion of the stale key already applied to the store). -/
def fetch_daily_menu (poisoned : Bool)
    (cache : List (CacheKey × CacheEntry V)) (cap fresh_dur now : Nat)
    (day : NDate) (canteen : Canteen) (fr : Except FetcherError V) :
    FetchOutcome V :=
  if poisoned then
    fetch_and_insert true cache cap fresh_dur now day canteen fr
  else
    match lruGet (canteen, day) cache with
    | none => fetch_and_insert false cache cap fresh_dur now day canteen fr
    | some (e, cache') =>
      if e.is_stale now then
        fetch_and_insert false cache' cap fresh_dur now day canteen fr
      else
        ⟨.ok e.val, cache', 0⟩

end HtmlMenuFetcherWithCache

/-! ## HTML documents (the tree the `scraper` crate exposes)

The extractor only needs tag names, class lists, child order and text
content, so a node is an element with those three or a text node. The
children sit in a mutually inductive `NodeList` (rather than a nested
`List Node`) so that every traversal is structurally recursive and
computes by kernel reduction. The CSS selectors the source uses are
embedded as dedicated traversal functions, each documented with its
selector string; tag names are compared ASCII-case-insensitively
(matching HTML semantics, and the explicit `to_ascii_lowercase`
comparison of the source), class names in CSS selectors case-sensitively,
and the explicit `has_class(..., AsciiCaseInsensitive)` calls of the
source case-insensitively. -/

mutual

/-- A node of the parsed HTML document. -/
inductive Node where
  | elem (tag : String) (classes : List String) (children : NodeList)
  | text (s : String)

/-- A sequence of sibling nodes. -/
inductive NodeList where
  | nil
  | cons (head : Node) (tail : NodeList)

end

/-- Conversion of a plain list of nodes into a `NodeList` (used to write
concrete documents). -/
def nl : List Node → NodeList
  | [] => .nil
  | n :: ns => .cons n (nl ns)

/-- The tag name of an element, ASCII-lowercased; empty for text. -/
def Node.tagLower : Node → String
  | .elem t _ _ => asciiLower t
  | .text _ => ""

/-- The class list of an element; empty for text. -/
def Node.classes : Node → List String
  | .elem _ cs _ => cs
  | .text _ => []

/-- Case-sensitive class membership (CSS class selector matching). -/
def Node.hasCls (c : String) (n : Node) : Bool :=
  n.classes.contains c

/-- ASCII-case-insensitive class membership (the source's
`has_class(name, CaseSensitivity::AsciiCaseInsensitive)`). -/
def Node.hasClsCI (c : String) (n : Node) : Bool :=
  n.classes.any (fun x => asciiLower x = asciiLower c)

/-- Whether a node is an element. -/
def Node.isElem : Node → Bool
  | .elem _ _ _ => true
  | .text _ => false

/-- The element members of a sibling sequence, in order. -/
def NodeList.elemsOnly : NodeList → List Node
  | .nil => []
  | .cons n ns => (if n.isElem then [n] else []) ++ NodeList.elemsOnly ns

/-- The element children of a node, in order (the `children()`
iterator filtered through `ElementRef::wrap`). -/
def Node.childElems : Node → List Node
  | .text _ => []
  | .elem _ _ ch => ch.elemsOnly

/-- The text members of a sibling sequence, in order. -/
def NodeList.textsOnly : NodeList → List String
  | .nil => []
  | .cons (.text s) ns => s :: NodeList.textsOnly ns
  | .cons (.elem _ _ _) ns => NodeList.textsOnly ns

/-- The direct text children of a node, in order
(`children().filter_map(|node| node.value().as_text())`). -/
def Node.directTexts : Node → List String
  | .text _ => []
  | .elem _ _ ch => ch.textsOnly

mutual

/-- All text content under a node in document order
(`ElementRef::text`). -/
def Node.texts : Node → List String
  | .text s => [s]
  | .elem _ _ ch => NodeList.texts ch

/-- Text content under a sibling sequence, in order. -/
def NodeList.texts : NodeList → List String
  | .nil => []
  | .cons n ns => Node.texts n ++ NodeList.texts ns

end

mutual

/-- Descendant elements of a node satisfying `p`, in document order, the
node itself excluded (a simple descendant selector such as
`span.menue-category` relative to an element). -/
def selDesc (p : Node → Bool) : Node → List Node
  | .text _ => []
  | .elem _ _ ch => selDescList p ch

/-- Descendant selection over a sibling sequence: each node is tested
itself and then its subtree is searched. -/
def selDescList (p : Node → Bool) : NodeList → List Node
  | .nil => []
  | .cons n ns => (if p n then [n] else []) ++ selDesc p n ++ selDescList p ns

end

mutual

/-- Child-combinator selection step: `pm` records whether the parent of
the node matches the parent predicate `pp`; the node itself is selected
when `pm` holds and it matches the child predicate `cp`, and the search
continues below it. -/
def selChildNode (pp cp : Node → Bool) (pm : Bool) : Node → List Node
  | .text _ => []
  | .elem t cs ch =>
    (if pm && cp (.elem t cs ch) then [Node.elem t cs ch] else []) ++
    selChildList pp cp (pp (.elem t cs ch)) ch

/-- Child-combinator selection over a sibling sequence. -/
def selChildList (pp cp : Node → Bool) (pm : Bool) : NodeList → List Node
  | .nil => []
  | .cons n ns => selChildNode pp cp pm n ++ selChildList pp cp pm ns

end

/-- Selection with a child combinator, `pp > cp`, relative to `root`
(`root` excluded as a match, included as a possible parent): used for
`h3 > a`, `tbody > tr` and `span.menue-desc > .expand-nutr`. -/
def selChild (pp cp : Node → Bool) (root : Node) : List Node :=
  match root with
  | .text _ => []
  | .elem t cs ch => selChildList pp cp (pp (.elem t cs ch)) ch

mutual

/-- Two-level descendant-combinator selection step for `p1 p2 p3`
selectors: `s1` records whether some proper ancestor matches `p1`, `s2`
whether some proper ancestor matches `p2` and itself has a `p1`
ancestor; a node matching `p3` is selected when `s2` holds. -/
def selDDNode (p1 p2 p3 : Node → Bool) (s1 s2 : Bool) : Node → List Node
  | .text _ => []
  | .elem t cs ch =>
    (if s2 && p3 (.elem t cs ch) then [Node.elem t cs ch] else []) ++
    selDDList p1 p2 p3 (s1 || p1 (.elem t cs ch))
      (s2 || (s1 && p2 (.elem t cs ch))) ch

/-- Two-level descendant-combinator selection over a sibling
sequence. -/
def selDDList (p1 p2 p3 : Node → Bool) (s1 s2 : Bool) : NodeList → List Node
  | .nil => []
  | .cons n ns => selDDNode p1 p2 p3 s1 s2 n ++ selDDList p1 p2 p3 s1 s2 ns

end

mutual

/-- Traversal for the `body div.accordion > div` selector
(`selectors::DAILY_MENU_WRAPPER`): `sawBody` records whether a proper
ancestor is a `body` element, `pm` whether the parent is a
`div.accordion` that itself descends from a `body`; a `div` whose `pm`
holds is selected. -/
def dailyWrappersNode (sawBody pm : Bool) : Node → List Node
  | .text _ => []
  | .elem t cs ch =>
    (if pm && (Node.elem t cs ch).tagLower = "div" then [Node.elem t cs ch] else []) ++
    dailyWrappersList (sawBody || (Node.elem t cs ch).tagLower = "body")
      (sawBody && (Node.elem t cs ch).tagLower = "div"
        && (Node.elem t cs ch).hasCls "accordion") ch

/-- The `body div.accordion > div` traversal over a sibling sequence. -/
def dailyWrappersList (sawBody pm : Bool) : NodeList → List Node
  | .nil => []
  | .cons n ns => dailyWrappersNode sawBody pm n ++ dailyWrappersList sawBody pm ns

end

/-- The day-section wrappers of a document:
`menu_html.select(&selectors::DAILY_MENU_WRAPPER)` with the selector
`body div.accordion > div`. -/
def dailyWrappers (doc : Node) : List Node :=
  dailyWrappersNode false false doc


/-! ## Date extraction from a section title -/

/-- A decimal digit, as matched by the `\d` class of the
`(\d{2}\.\d{2}\.\d{4})` regex (the dates on the page are ASCII). -/
def isDig (c : Char) : Bool := c.isDigit

/-- Attempt to match `dd.mm.yyyy` at the head of a character list,
returning the ten matched characters. -/
def matchDateAt : List Char → Option (List Char)
  | d1 :: d2 :: '.' :: m1 :: m2 :: '.' :: y1 :: y2 :: y3 :: y4 :: _ =>
    if isDig d1 && isDig d2 && isDig m1 && isDig m2 &&
       isDig y1 && isDig y2 && isDig y3 && isDig y4
    then some [d1, d2, '.', m1, m2, '.', y1, y2, y3, y4]
    else none
  | _ => none

/-- Leftmost match of the `re::DATE_REGEX` pattern
`(\d{2}\.\d{2}\.\d{4})` in a character list (`Regex::find`). -/
def findDate : List Char → Option (List Char)
  | [] => none
  | c :: rest =>
    match matchDateAt (c :: rest) with
    | some m => some m
    | none => findDate rest

/-- Numeric value of a decimal digit character. -/
def digitVal (c : Char) : Nat := c.toNat - 48

/-- `NaiveDate::parse_from_str(m, "%d.%m.%Y")` on the ten regex-matched
characters: read the day, month and year numerals and validate the
calendar date. -/
def parseDMY (cs : List Char) : Option NDate :=
  match cs with
  | [d1, d2, '.', m1, m2, '.', y1, y2, y3, y4] =>
    let d := 10 * digitVal d1 + digitVal d2
    let m := 10 * digitVal m1 + digitVal m2
    let y := 1000 * digitVal y1 + 100 * digitVal y2 + 10 * digitVal y3 + digitVal y4
    if validDate y m d then some ⟨y, m, d⟩ else none
  | _ => none

/-- The date a day-section wrapper carries: the first text under its
`h3 > a` title elements (`selectors::DATE_TITLE`), searched for the date
regex and parsed — `None` whenever any step of the chain fails. -/
def sectionDate (w : Node) : Option NDate :=
  ((selChild (fun p => p.tagLower = "h3") (fun c => c.tagLower = "a") w).flatMap
      Node.texts).head?.bind
    (fun t => (findDate t.toList).bind parseDMY)

/-- The filter predicate of `fetch_daily_menu` on a day-section wrapper:
the section date parsed and equal to the target day, with every failure
collapsed to `false` (`.unwrap_or(false)`). -/
def sectionMatchesDay (w : Node) (day : NDate) : Bool :=
  match sectionDate w with
  | some d => decide (d = day)
  | none => false

/-! ## The extractor (src/domain/fetch/html_fetcher.rs) -/

/-- The label mapping of `parse_menu_dish`: the six recognized row class
markers, every other class ignored. -/
def labelOfClass (cls : String) : Option Label :=
  if cls = "Fisch" then some .Fish
  else if cls = "OLV" then some .Veggie
  else if cls = "vegan" then some .Vegan
  else if cls = "Geflügel" then some .Chicken
  else if cls = "Schwein" then some .Pork
  else if cls = "Rind" then some .Beef
  else none

/-- The row selector of `parse_menu_table`, `tbody > tr`, relative to
the dish table. -/
def selectTbodyTr (table : Node) : List Node :=
  selChild (fun p => p.tagLower = "tbody") (fun c => c.tagLower = "tr") table

/-- The selector `span.menue-category` relative to a dish row. -/
def selectMenueCategory (tr : Node) : List Node :=
  selDesc (fun n => n.tagLower = "span" && n.hasCls "menue-category") tr

/-- The selector `span.menue-desc > .expand-nutr` relative to a dish
row. -/
def selectDishDescr (tr : Node) : List Node :=
  selChild (fun p => p.tagLower = "span" && p.hasCls "menue-desc")
    (fun c => c.isElem && c.hasCls "expand-nutr") tr

/-- The selector `span.menue-price` relative to a dish row. -/
def selectMenuePrice (tr : Node) : List Node :=
  selDesc (fun n => n.tagLower = "span" && n.hasCls "menue-price") tr

/-- `HtmlMenuFetcher::parse_menu_dish`: category token, dish name and
ingredient list from the description split on the bar character, the
optional (untrimmed) price, and the recognized label classes of the row,
in source order. A missing category or description element, or a
category element without a text node, produces the corresponding
`anyhow!` message error; a whitespace-only category text reaches an
`unwrap` of `split_ascii_whitespace().next()` on no element and panics. -/
def parse_menu_dish (tr : Node) : Except FetcherError (String × FetchedDish) := do
  let catElm ← match (selectMenueCategory tr).head? with
    | some e => Except.ok e
    | none => Except.error (.msg "No span with class \"menue-category\"")
  let catText ← match catElm.texts.head? with
    | some t => Except.ok t
    | none => Except.error (.msg ".menu-category contains no text node")
  let category ← match (splitAsciiWhitespace (trimStr catText)).head? with
    | some tok => Except.ok tok
    | none => Except.error .panicked
  let descElm ← match (selectDishDescr tr).head? with
    | some e => Except.ok e
    | none => Except.error (.msg "No span with class \"menue-descr\"")
  let dish : String := String.join descElm.directTexts
  let parts := (splitChar '|' dish).map trimStr
  let dish_name := parts.headD ""
  let dish_descs := parts.tail
  let price : Option String := (selectMenuePrice tr).head?.bind (fun e => e.texts.head?)
  let labels := tr.classes.filterMap labelOfClass
  pure (category, ⟨dish_name, dish_descs, labels, price⟩)

/-- The `HashMap` accumulation of `parse_menu_table`:
`map.entry(cat).or_insert(vec![]).push(dish)`, embedded on an
association list kept in first-insertion order. -/
def addDish (m : List (String × List FetchedDish)) (cat : String)
    (d : FetchedDish) : List (String × List FetchedDish) :=
  match m with
  | [] => [(cat, [d])]
  | (c, ds) :: rest =>
    if c = cat then (c, ds ++ [d]) :: rest else (c, ds) :: addDish rest cat d

/-- `HtmlMenuFetcher::parse_menu_table`: parse every `tbody > tr` row
and fold the results into the category map. The source fold evaluates
the row result before the accumulator, so a failing row's error replaces
any earlier error. -/
def parse_menu_table (table : Node) :
    Except FetcherError (List (String × List FetchedDish)) :=
  (selectTbodyTr table).foldl
    (fun acc tr => do
      let (cat, d) ← parse_menu_dish tr
      let m ← acc
      pure (addDish m cat d))
    (Except.ok [])

/-- The or-joining of the extras description lines in
`parse_extras_table`: `split_at(len - 1)` guarded by `checked_sub`, the
initial lines joined with a comma and the last appended after an
" oder "; an empty list joins to the empty string. -/
def joinExtras (extras : List String) : String :=
  if extras.isEmpty then String.join extras
  else String.intercalate ", " extras.dropLast ++ " oder " ++ (extras.getLastD "")

/-- The row selector of `parse_extras_table`,
`tbody tr .menue-wrapper`, relative to the extras table. -/
def selectExtrasRows (table : Node) : List Node :=
  selDDNode (fun a => a.tagLower = "tbody") (fun a => a.tagLower = "tr")
    (fun n => n.isElem && n.hasCls "menue-wrapper") false false table

/-- The cell selector of `parse_extras_table`, `span.menue-item.extra`,
relative to one extras row. -/
def selectExtraCells (row : Node) : List Node :=
  selDesc (fun n => n.tagLower = "span" && n.hasCls "menue-item" && n.hasCls "extra") row

/-- One row of `parse_extras_table`: the category is the trimmed first
text of the first cell carrying class `menue-category`
(case-insensitively), with the empty string as fallback; the description
is the or-joining of the trimmed direct text children of the first cell
carrying class `menue-desc`, whose absence is an error. -/
def parse_extras_row (row : Node) : Except FetcherError MenuExtra := do
  let cells := selectExtraCells row
  let category :=
    (((cells.filter (Node.hasClsCI "menue-category")).head?.bind
        (fun e => e.texts.head?)).map trimStr).getD ""
  let descElm ← match (cells.filter (Node.hasClsCI "menue-desc")).head? with
    | some e => Except.ok e
    | none => Except.error (.msg "No span with class \"menue-desc\"")
  let extras := descElm.directTexts.map trimStr
  pure ⟨category, joinExtras extras⟩

/-- `HtmlMenuFetcher::parse_extras_table`: parse every selected row,
collected into a list, stopping at the first failing row
(`collect::<Result<Vec<_>>>`). -/
def parse_extras_table (table : Node) : Except FetcherError (List MenuExtra) :=
  (selectExtrasRows table).mapM parse_extras_row

/-- The table scan of `HtmlMenuFetcher::parse_menu`: among the element
children of the container whose lowercased tag is `table`, the fold
keeps the last table carrying class `menues` (case-insensitively) and
the last carrying class `extras`, a `menues` match taking priority over
an `extras` match on the same element. -/
def menuTables (container : Node) : Option Node × Option Node :=
  ((container.childElems).filter (fun e => e.tagLower = "table")).foldl
    (fun acc e =>
      if e.hasClsCI "menues" then (some e, acc.2)
      else if e.hasClsCI "extras" then (acc.1, some e)
      else acc)
    (none, none)

/-- `HtmlMenuFetcher::parse_menu`: the dish table (class `menues`) and
the extras table (class `extras`) must both be found among the
container's table children — each absence is its `ElementNotFound`
error, the dish table checked first — and their parses combine into the
menu. -/
def parse_menu (container : Node) : Except FetcherError FetchedMenu := do
  let menu_table ← match (menuTables container).1 with
    | some t => Except.ok t
    | none => Except.error (.elementNotFound "table" ["menues"])
  let extras_table ← match (menuTables container).2 with
    | some t => Except.ok t
    | none => Except.error (.elementNotFound "table" ["extras"])
  let dishes ← parse_menu_table menu_table
  let extras ← parse_extras_table extras_table
  pure ⟨dishes, extras⟩

/-- The container selection of `HtmlMenuFetcher::fetch_daily_menu`: the
day-section wrappers whose section date equals the target day, their
children flattened, kept if elements matching the `div` selector, and
the first taken. -/
def menuContainer (doc : Node) (day : NDate) : Option Node :=
  (((dailyWrappers doc).filter (fun w => sectionMatchesDay w day)).flatMap
      Node.childElems).filter (fun e => e.tagLower = "div") |>.head?

namespace HtmlMenuFetcher

/-- `HtmlMenuFetcher::fetch_daily_menu` on an already-retrieved document
(the network retrieval itself is outside this embedding): when no
matching day-section provides a `div` container the call fails with
`CanteenClosed` for exactly this canteen and day; otherwise the
container is parsed into a menu. -/
def fetch_daily_menu (doc : Node) (day : NDate) (canteen : Canteen) :
    Except FetcherError FetchedMenu :=
  match menuContainer doc day with
  | none => Except.error (.canteenClosed canteen day)
  | some c => parse_menu c

end HtmlMenuFetcher

/-! ## Concrete documents and menus used to instantiate the theorems -/

/-- A dish row whose description text is
`Gulasch | Rind, Sauce, Kartoffeln` and which carries no recognized
label marker and no price element. -/
def trDishRow : Node :=
  .elem "tr" ["bg-color"] (nl [
    .elem "td" [] (nl [
      .elem "span" ["menue-category"] (nl [.text "Tellergericht süß"]),
      .elem "span" ["menue-desc"] (nl [
        .elem "span" ["expand-nutr"] (nl [.text "Gulasch | Rind, Sauce, Kartoffeln"])])])])

/-- A dish row whose price element's text carries surrounding
whitespace. -/
def trPriceRow : Node :=
  .elem "tr" [] (nl [
    .elem "td" [] (nl [
      .elem "span" ["menue-category"] (nl [.text "Klassiker Menü"]),
      .elem "span" ["menue-desc"] (nl [
        .elem "span" ["expand-nutr"] (nl [.text "Erbsensuppe"])]),
      .elem "span" ["menue-price"] (nl [.text " 2,60 € "])])])

/-- An extras row whose description cell holds exactly one text line. -/
def rowSingleExtra : Node :=
  .elem "div" ["menue-wrapper"] (nl [
    .elem "span" ["menue-item", "extra", "menue-desc"] (nl [.text "A"])])

/-- The date 13.10.2025 used by the concrete documents. -/
def dOct13 : NDate := ⟨2025, 10, 13⟩

/-- A day-section wrapper titled with the date 13.10.2025 that has no
`div` child at all (no inner menu block). -/
def wNoContainer : Node :=
  .elem "div" [] (nl [
    .elem "h3" [] (nl [.elem "a" [] (nl [.text "Montag, 13.10.2025"])])])

/-- A document whose single day-section matches 13.10.2025 but lacks the
inner `div` block. -/
def docNoContainer : Node :=
  .elem "html" [] (nl [
    .elem "body" [] (nl [
      .elem "div" ["accordion"] (nl [wNoContainer])])])

/-- The inner container of `docNoTables`: a `div` with no tables. -/
def contNoTables : Node := .elem "div" ["menu-block"] .nil

/-- A document whose single day-section matches 13.10.2025 and has an
inner `div` block containing no tables at all. -/
def docNoTables : Node :=
  .elem "html" [] (nl [
    .elem "body" [] (nl [
      .elem "div" ["accordion"] (nl [
        .elem "div" [] (nl [
          .elem "h3" [] (nl [.elem "a" [] (nl [.text "Montag, 13.10.2025"])]),
          contNoTables])])])])

/-- A document whose single day-section is titled with 01.01.2024 only:
no section of it carries the date 02.01.2024. -/
def docOtherDate : Node :=
  .elem "html" [] (nl [
    .elem "body" [] (nl [
      .elem "div" ["accordion"] (nl [
        .elem "div" [] (nl [
          .elem "h3" [] (nl [.elem "a" [] (nl [.text "Montag, 01.01.2024"])]),
          .elem "div" [] .nil])])])])

/-- A sample dish for the rendering theorems. -/
def dishGulasch : Dish := ⟨"Gulasch", ["Rind"], [.Beef], "2,60 €"⟩

/-- A menu holding one non-empty category `A` and one empty category
`B`, no extras. -/
def mWithEmpty : Menu := ⟨[("A", [dishGulasch]), ("B", [])], []⟩

/-- The same menu with the empty category `B` removed. -/
def mWithoutEmpty : Menu := ⟨[("A", [dishGulasch])], []⟩

/-- A two-category menu listed in non-lexicographic source order. -/
def mUnsorted : Menu :=
  ⟨[("B", [dishGulasch]), ("A", [dishGulasch])], [⟨"Hauptbeilagen", "Pommes"⟩]⟩

/-- The same menu with its categories listed in the other order. -/
def mSorted : Menu :=
  ⟨[("A", [dishGulasch]), ("B", [dishGulasch])], [⟨"Hauptbeilagen", "Pommes"⟩]⟩

/-- A sample extracted menu used as a cached value. -/
def menuA : FetchedMenu := ⟨[("Klassiker", [⟨"Erbsensuppe", [], [], none⟩])], []⟩

/-- A second sample extracted menu. -/
def menuB : FetchedMenu := ⟨[("Wok", [⟨"Nudeln", [], [], some "3,10 €"⟩])], []⟩

/-- A cache entry for `menuA` created at instant 0 with a 600-second
freshness window. -/
def entryA : CacheEntry FetchedMenu := ⟨menuA, 0, 600⟩

/-- A two-entry cache whose most-recently-used key is the Ahornstraße
site and whose older key is the Academica site. -/
def cacheAB : List (CacheKey × CacheEntry FetchedMenu) :=
  [((Canteen.Ahorn, dOct13), ⟨menuB, 0, 600⟩), ((Canteen.Academica, dOct13), entryA)]

/-! ## Helper lemmas -/

/-- Filtering by a predicate implied by the search predicate does not
change the result of `find?`. -/
theorem find?_filter_of_imp (l : List α) (p q : α → Bool)
    (h : ∀ x, p x = true → q x = true) :
    (l.filter q).find? p = l.find? p := by
  induction l with
  | nil => rfl
  | cons a l ih =>
    by_cases hq : q a = true
    · by_cases hp : p a = true
      · simp [List.filter_cons, hq, List.find?, hp]
      · simp only [List.filter_cons, hq, if_true, List.find?]
        simp only [hp]
        simpa [List.find?, hp] using ih
    · have hp : p a = false := by
        cases hpa : p a
        · rfl
        · exact absurd (h a hpa) hq
      simp [List.filter_cons, hq, List.find?, hp, ih]

/-- Promoting a found key to the head of the LRU list does not change
what any key looks up to. -/
theorem lruLookup_promote {V : Type} (k : CacheKey)
    (c : List (CacheKey × CacheEntry V)) (pr : CacheKey × CacheEntry V)
    (hf : c.find? (fun p => decide (p.1 = k)) = some pr) (k' : CacheKey) :
    lruLookup k' ((k, pr.2) :: lruRemove k c) = lruLookup k' c := by
  by_cases hk : k' = k
  · subst hk
    simp [lruLookup, List.find?, hf]
  · have hne : (decide ((k, pr.2).1 = k')) = false := by
      simp only [decide_eq_false_iff_not]
      exact fun hkk => hk (hkk ▸ rfl)
    simp only [lruLookup, List.find?, hne, lruRemove]
    rw [find?_filter_of_imp]
    intro x hx
    simp only [decide_eq_true_eq] at hx
    simp only [decide_eq_true_eq]
    rw [hx]
    exact hk

/-- Staleness is monotone in the clock: an entry stale now is stale at
every later instant. -/
theorem is_stale_mono {V : Type} (e : CacheEntry V) {now now₂ : Nat}
    (h : now ≤ now₂) (hs : e.is_stale now = true) : e.is_stale now₂ = true := by
  simp only [CacheEntry.is_stale, CacheEntry.is_fresh, Bool.not_eq_true',
    decide_eq_false_iff_not] at hs ⊢
  omega

/-! ## Claim C1 -/

/-- C1: with the lock healthy, if the cache holds an entry for
`(canteen, day)` that is fresh at the call instant, `fetch_daily_menu`
returns exactly that entry's menu, performs no fetch, and leaves the
cache with the key promoted to most-recently-used; a repeated call for
the same key at any instant still inside the freshness window again
returns the identical menu and performs no fetch either, whatever the
fetcher would produce. -/
theorem fresh_cache_hit_returns_entry {V : Type}
    (cache : List (CacheKey × CacheEntry V)) (cap fresh_dur now now₂ : Nat)
    (day : NDate) (canteen : Canteen) (fr fr₂ : Except FetcherError V)
    (e : CacheEntry V)
    (hl : lruLookup (canteen, day) cache = some e)
    (hfresh : now - e.created ≤ e.fresh_dur)
    (hfresh₂ : now₂ - e.created ≤ e.fresh_dur) :
    (HtmlMenuFetcherWithCache.fetch_daily_menu false cache cap fresh_dur now
        day canteen fr).result = .ok e.val ∧
    (HtmlMenuFetcherWithCache.fetch_daily_menu false cache cap fresh_dur now
        day canteen fr).fetches = 0 ∧
    (HtmlMenuFetcherWithCache.fetch_daily_menu false cache cap fresh_dur now
        day canteen fr).cache
      = ((canteen, day), e) :: lruRemove (canteen, day) cache ∧
    (HtmlMenuFetcherWithCache.fetch_daily_menu false
        ((HtmlMenuFetcherWithCache.fetch_daily_menu false cache cap fresh_dur
          now day canteen fr).cache) cap fresh_dur now₂ day canteen
        fr₂).result = .ok e.val ∧
    (HtmlMenuFetcherWithCache.fetch_daily_menu false
        ((HtmlMenuFetcherWithCache.fetch_daily_menu false cache cap fresh_dur
          now day canteen fr).cache) cap fresh_dur now₂ day canteen
        fr₂).fetches = 0 := by
  obtain ⟨pr, hfind, hval⟩ := Option.map_eq_some'.mp hl
  have hstale : CacheEntry.is_stale e now = false := by
    simp [CacheEntry.is_stale, CacheEntry.is_fresh, hfresh]
  have hstale₂ : CacheEntry.is_stale e now₂ = false := by
    simp [CacheEntry.is_stale, CacheEntry.is_fresh, hfresh₂]
  have h1 : HtmlMenuFetcherWithCache.fetch_daily_menu false cache cap
      fresh_dur now day canteen fr
      = ⟨.ok e.val, ((canteen, day), e) :: lruRemove (canteen, day) cache, 0⟩ := by
    simp [HtmlMenuFetcherWithCache.fetch_daily_menu, lruGet, hfind, hval, hstale]
  rw [h1]
  refine ⟨rfl, rfl, rfl, ?_, ?_⟩ <;>
    simp [HtmlMenuFetcherWithCache.fetch_daily_menu, lruGet, List.find?, hstale₂]

/-- Witness for C1 at a concrete cache: the Academica entry is fresh at
instants 5 and 300, both calls return its menu with no fetch, and the
first call promotes the key to the head. -/
theorem fresh_cache_hit_returns_entry_witness :
    lruLookup (Canteen.Academica, dOct13) cacheAB = some entryA ∧
    5 - entryA.created ≤ entryA.fresh_dur ∧
    (HtmlMenuFetcherWithCache.fetch_daily_menu false cacheAB 16 600 5 dOct13
        Canteen.Academica (.error .panicked)).result = .ok entryA.val ∧
    (HtmlMenuFetcherWithCache.fetch_daily_menu false cacheAB 16 600 5 dOct13
        Canteen.Academica (.error .panicked)).fetches = 0 := by
  have h := fresh_cache_hit_returns_entry cacheAB 16 600 5 300 dOct13
    Canteen.Academica (.error .panicked) (.ok menuB) entryA (by decide)
    (by decide) (by decide)
  exact ⟨by decide, by decide, h.1, h.2.1⟩

/-! ## Claim C2 -/

/-- C2: with the lock healthy, on the miss/stale path (no fresh entry
for the key), a failing fetch+extract makes `fetch_daily_menu` return
exactly that error, every key still looks up to exactly the entry it had
before (nothing inserted, the stale entry not purged), and any later
call for the key again reaches the fetcher (performs a fetch) whatever
that fetcher produces. -/
theorem failed_refresh_preserves_entries {V : Type}
    (cache : List (CacheKey × CacheEntry V)) (cap fresh_dur now : Nat)
    (day : NDate) (canteen : Canteen) (err : FetcherError)
    (hstale : ∀ e : CacheEntry V,
      lruLookup (canteen, day) cache = some e → e.is_stale now = true) :
    (HtmlMenuFetcherWithCache.fetch_daily_menu false cache cap fresh_dur now
        day canteen (.error err)).result = .error err ∧
    (∀ k, lruLookup k
        (HtmlMenuFetcherWithCache.fetch_daily_menu false cache cap fresh_dur
          now day canteen (.error err)).cache = lruLookup k cache) ∧
    (∀ now₂ (fr₂ : Except FetcherError V), now ≤ now₂ →
      (HtmlMenuFetcherWithCache.fetch_daily_menu false
          (HtmlMenuFetcherWithCache.fetch_daily_menu false cache cap fresh_dur
            now day canteen (.error err)).cache
          cap fresh_dur now₂ day canteen fr₂).fetches = 1) := by
  cases hfind : cache.find? (fun p => decide (p.1 = (canteen, day))) with
  | none =>
    have h1 : HtmlMenuFetcherWithCache.fetch_daily_menu false cache cap
        fresh_dur now day canteen (.error err) = ⟨.error err, cache, 1⟩ := by
      simp [HtmlMenuFetcherWithCache.fetch_daily_menu, lruGet, hfind,
        HtmlMenuFetcherWithCache.fetch_and_insert]
    rw [h1]
    refine ⟨rfl, fun k => rfl, fun now₂ fr₂ _ => ?_⟩
    cases fr₂ <;>
      simp [HtmlMenuFetcherWithCache.fetch_daily_menu, lruGet, hfind,
        HtmlMenuFetcherWithCache.fetch_and_insert]
  | some pr =>
    have hst : pr.2.is_stale now = true :=
      hstale pr.2 (by simp [lruLookup, hfind])
    have h1 : HtmlMenuFetcherWithCache.fetch_daily_menu false cache cap
        fresh_dur now day canteen (.error err)
        = ⟨.error err,
           ((canteen, day), pr.2) :: lruRemove (canteen, day) cache, 1⟩ := by
      simp [HtmlMenuFetcherWithCache.fetch_daily_menu, lruGet, hfind, hst,
        HtmlMenuFetcherWithCache.fetch_and_insert]
    rw [h1]
    refine ⟨rfl, fun k => lruLookup_promote (canteen, day) cache pr hfind k,
      fun now₂ fr₂ hle => ?_⟩
    have hst₂ : pr.2.is_stale now₂ = true := is_stale_mono pr.2 hle hst
    cases fr₂ <;>
      simp [HtmlMenuFetcherWithCache.fetch_daily_menu, lruGet, List.find?,
        hst₂, HtmlMenuFetcherWithCache.fetch_and_insert]

/-- Witness for C2 at a concrete cache: the Academica entry is stale at
instant 1000, the failed refresh propagates the error and every key
still looks up to what it did before. -/
theorem failed_refresh_preserves_entries_witness :
    (∀ e : CacheEntry FetchedMenu,
      lruLookup (Canteen.Academica, dOct13) cacheAB = some e →
        e.is_stale 1000 = true) ∧
    (HtmlMenuFetcherWithCache.fetch_daily_menu false cacheAB 16 600 1000
        dOct13 Canteen.Academica
        (.error (.transport "timeout"))).result = .error (.transport "timeout") ∧
    lruLookup (Canteen.Ahorn, dOct13)
      (HtmlMenuFetcherWithCache.fetch_daily_menu false cacheAB 16 600 1000
        dOct13 Canteen.Academica (.error (.transport "timeout"))).cache
      = lruLookup (Canteen.Ahorn, dOct13) cacheAB := by
  have h := failed_refresh_preserves_entries cacheAB 16 600 1000 dOct13
    Canteen.Academica (.transport "timeout") (by decide)
  exact ⟨by decide, h.1, h.2.1 (Canteen.Ahorn, dOct13)⟩

/-! ## Claim C8 -/

/-- C8: when the cache's store cannot be accessed (the lock is
poisoned), `fetch_daily_menu` performs the fetch+extract directly,
returns its outcome unchanged — so the call never fails because of the
cache-access failure alone — and leaves the cache contents untouched
(nothing is cached). -/
theorem poisoned_lock_falls_back_uncached {V : Type}
    (cache : List (CacheKey × CacheEntry V)) (cap fresh_dur now : Nat)
    (day : NDate) (canteen : Canteen) (fr : Except FetcherError V) :
    (HtmlMenuFetcherWithCache.fetch_daily_menu true cache cap fresh_dur now
        day canteen fr).result = fr ∧
    (HtmlMenuFetcherWithCache.fetch_daily_menu true cache cap fresh_dur now
        day canteen fr).cache = cache ∧
    (HtmlMenuFetcherWithCache.fetch_daily_menu true cache cap fresh_dur now
        day canteen fr).fetches = 1 := by
  cases fr <;>
    simp [HtmlMenuFetcherWithCache.fetch_daily_menu,
      HtmlMenuFetcherWithCache.fetch_and_insert]

/-! ## Claim C10 -/

/-- C10: with the lock healthy, looking up a stale entry already
promotes its key to most-recently-used (the stale check goes through the
mutating `get`), so even when the refresh then fails and nothing is
written the cache order has changed: the resulting store is the old one
with the key moved to the head, which differs from the old store
whenever its head held a different key. -/
theorem stale_lookup_promotes_key {V : Type}
    (cache : List (CacheKey × CacheEntry V)) (cap fresh_dur now : Nat)
    (day : NDate) (canteen : Canteen) (err : FetcherError) (e : CacheEntry V)
    (hl : lruLookup (canteen, day) cache = some e)
    (hstale : e.is_stale now = true) :
    (HtmlMenuFetcherWithCache.fetch_daily_menu false cache cap fresh_dur now
        day canteen (.error err)).result = .error err ∧
    (HtmlMenuFetcherWithCache.fetch_daily_menu false cache cap fresh_dur now
        day canteen (.error err)).cache
      = ((canteen, day), e) :: lruRemove (canteen, day) cache ∧
    (∀ k₀ v₀ rest, cache = (k₀, v₀) :: rest → k₀ ≠ (canteen, day) →
      (HtmlMenuFetcherWithCache.fetch_daily_menu false cache cap fresh_dur now
        day canteen (.error err)).cache ≠ cache) := by
  obtain ⟨pr, hfind, hval⟩ := Option.map_eq_some'.mp hl
  have h1 : HtmlMenuFetcherWithCache.fetch_daily_menu false cache cap
      fresh_dur now day canteen (.error err)
      = ⟨.error err, ((canteen, day), e) :: lruRemove (canteen, day) cache, 1⟩ := by
    simp [HtmlMenuFetcherWithCache.fetch_daily_menu, lruGet, hfind, hval,
      hstale, HtmlMenuFetcherWithCache.fetch_and_insert]
  rw [h1]
  refine ⟨rfl, rfl, fun k₀ v₀ rest hc hk₀ hcontra => ?_⟩
  rw [hc] at hcontra
  have : ((canteen, day), e) = (k₀, v₀) := by
    exact (List.cons.injEq _ _ _ _ ▸ hcontra).1
  exact hk₀ (congrArg Prod.fst this.symm)

/-- Witness for C10 at a concrete cache: the Academica entry is stale at
instant 1000 and sits behind the Ahornstraße entry; after the failed
refresh the Academica key heads the store and its order has changed. -/
theorem stale_lookup_promotes_key_witness :
    lruLookup (Canteen.Academica, dOct13) cacheAB = some entryA ∧
    entryA.is_stale 1000 = true ∧
    (HtmlMenuFetcherWithCache.fetch_daily_menu false cacheAB 16 600 1000
        dOct13 Canteen.Academica (.error .panicked)).cache
      = ((Canteen.Academica, dOct13), entryA)
          :: lruRemove (Canteen.Academica, dOct13) cacheAB ∧
    (HtmlMenuFetcherWithCache.fetch_daily_menu false cacheAB 16 600 1000
        dOct13 Canteen.Academica (.error .panicked)).cache ≠ cacheAB := by
  have h := stale_lookup_promotes_key cacheAB 16 600 1000 dOct13
    Canteen.Academica .panicked entryA (by decide) (by decide)
  refine ⟨by decide, by decide, h.2.1, ?_⟩
  exact h.2.2 (Canteen.Ahorn, dOct13) ⟨menuB, 0, 600⟩
    [((Canteen.Academica, dOct13), entryA)] rfl (by decide)

/-! ## Claim C3 -/

/-- C3: whenever no day-section wrapper of the document carries an
embedded `DD.MM.YYYY` date equal to the target day, `fetch_daily_menu`
fails with `CanteenClosed` carrying exactly that canteen and day — in
particular never with a structural `ElementNotFound` error. -/
theorem no_matching_date_yields_canteen_closed (doc : Node) (day : NDate)
    (canteen : Canteen)
    (h : ∀ w ∈ dailyWrappers doc, sectionDate w ≠ some day) :
    HtmlMenuFetcher.fetch_daily_menu doc day canteen
      = .error (.canteenClosed canteen day) := by
  have hfilter : (dailyWrappers doc).filter (fun w => sectionMatchesDay w day)
      = [] := by
    rw [List.filter_eq_nil_iff]
    intro w hw
    have hd := h w hw
    unfold sectionMatchesDay
    cases hsd : sectionDate w with
    | none => simp
    | some d =>
      rw [hsd] at hd
      simp only [Bool.not_eq_true, decide_eq_false_iff_not]
      exact fun he => hd (he ▸ rfl)
  unfold HtmlMenuFetcher.fetch_daily_menu menuContainer
  rw [hfilter]
  rfl

/-- Witness for C3: a document whose only day-section is dated
01.01.2024 never matches the target day 02.01.2024, so the call closes
with `CanteenClosed` for that canteen and day. -/
theorem no_matching_date_yields_canteen_closed_witness :
    (∀ w ∈ dailyWrappers docOtherDate, sectionDate w ≠ some ⟨2024, 1, 2⟩) ∧
    HtmlMenuFetcher.fetch_daily_menu docOtherDate ⟨2024, 1, 2⟩ Canteen.Vita
      = .error (.canteenClosed Canteen.Vita ⟨2024, 1, 2⟩) :=
  ⟨by decide,
   no_matching_date_yields_canteen_closed docOtherDate ⟨2024, 1, 2⟩
     Canteen.Vita (by decide)⟩

/-! ## Claim C4 -/

/-- C4 counterexample: `docNoContainer` holds a day-section whose
embedded date equals the target day 13.10.2025 but which lacks the inner
`div` block, and the call fails with `CanteenClosed` — not with the
`ElementNotFound` the claim requires for a missing inner block. -/
theorem missing_container_yields_canteen_closed :
    sectionMatchesDay wNoContainer dOct13 = true ∧
    dailyWrappers docNoContainer = [wNoContainer] ∧
    HtmlMenuFetcher.fetch_daily_menu docNoContainer dOct13 Canteen.Academica
      = .error (.canteenClosed Canteen.Academica dOct13) :=
  ⟨by decide, rfl, rfl⟩

/-- C4 as amended: when a matching day-section does provide the inner
`div` container, a missing dish table (class `menues`) among its table
children fails the call with `ElementNotFound` for tag `table` and
marker `menues`, and a present dish table with a missing extras table
(class `extras`) fails it with `ElementNotFound` for tag `table` and
marker `extras` — never with `CanteenClosed`; a matching section without
any inner `div` container instead folds into the `CanteenClosed` case
(see the counterexample). -/
theorem missing_tables_yield_element_not_found (doc : Node) (day : NDate)
    (canteen : Canteen) (c : Node)
    (hc : menuContainer doc day = some c) :
    ((menuTables c).1 = none →
      HtmlMenuFetcher.fetch_daily_menu doc day canteen
        = .error (.elementNotFound "table" ["menues"])) ∧
    (∀ mt, (menuTables c).1 = some mt → (menuTables c).2 = none →
      HtmlMenuFetcher.fetch_daily_menu doc day canteen
        = .error (.elementNotFound "table" ["extras"])) := by
  have hfetch : HtmlMenuFetcher.fetch_daily_menu doc day canteen
      = parse_menu c := by
    unfold HtmlMenuFetcher.fetch_daily_menu
    rw [hc]
  constructor
  · intro h1
    rw [hfetch]
    unfold parse_menu
    rw [h1]
    rfl
  · intro mt h1 h2
    rw [hfetch]
    unfold parse_menu
    rw [h1, h2]
    rfl

/-- Witness for the amended C4: `docNoTables` has a matching day-section
whose container holds no tables, and the call fails with
`ElementNotFound` for tag `table` and marker `menues`. -/
theorem missing_tables_yield_element_not_found_witness :
    menuContainer docNoTables dOct13 = some contNoTables ∧
    (menuTables contNoTables).1 = none ∧
    HtmlMenuFetcher.fetch_daily_menu docNoTables dOct13 Canteen.Academica
      = .error (.elementNotFound "table" ["menues"]) :=
  ⟨rfl, rfl,
   (missing_tables_yield_element_not_found docNoTables dOct13
     Canteen.Academica contNoTables rfl).1 rfl⟩

/-! ## Claim C5 -/

/-- C5: the or-joining of extras description lines follows the claim for
zero lines (empty string) and for several lines (comma-joined initial
lines, then " oder ", then the last) — but an extras row with exactly
one line "A" renders as " oder A", not as the line verbatim: the
`checked_sub` guard only excludes the empty list, and `split_at(0)`
leaves an empty initial segment whose join contributes nothing before
the " oder " infix. -/
theorem single_extra_line_renders_with_dangling_oder :
    joinExtras ["A"] = " oder A" ∧
    joinExtras ["A"] ≠ "A" ∧
    parse_extras_row rowSingleExtra = .ok ⟨"", " oder A"⟩ ∧
    joinExtras ["A", "B", "C"] = "A, B oder C" ∧
    joinExtras [] = "" :=
  ⟨rfl, by decide, rfl, rfl, rfl⟩

/-! ## Helper: success shape of `parse_menu_dish` -/

/-- When `parse_menu_dish` succeeds, its outputs are exactly the
selector-derived components: category token from the trimmed first text
of the first category span, name and ingredients from the bar-split of
the joined direct texts of the description element, labels from the
row's recognized classes, and the price as the untrimmed first text of
the first price span when one exists. -/
theorem parse_menu_dish_ok_elim (tr : Node) (cat : String) (d : FetchedDish)
    (h : parse_menu_dish tr = .ok (cat, d)) :
    ∃ catElm catText descElm,
      (selectMenueCategory tr).head? = some catElm ∧
      catElm.texts.head? = some catText ∧
      (splitAsciiWhitespace (trimStr catText)).head? = some cat ∧
      (selectDishDescr tr).head? = some descElm ∧
      d = ⟨((splitChar '|' (String.join descElm.directTexts)).map trimStr).headD "",
           ((splitChar '|' (String.join descElm.directTexts)).map trimStr).tail,
           tr.classes.filterMap labelOfClass,
           (selectMenuePrice tr).head?.bind (fun e => e.texts.head?)⟩ := by
  unfold parse_menu_dish at h
  rcases hc1 : (selectMenueCategory tr).head? with _ | catElm <;> rw [hc1] at h
  · simp [Bind.bind, Except.bind] at h
  simp only [Bind.bind, Except.bind] at h
  rcases hc2 : catElm.texts.head? with _ | catText <;> rw [hc2] at h
  · simp [Bind.bind, Except.bind] at h
  simp only [Bind.bind, Except.bind] at h
  rcases hc3 : (splitAsciiWhitespace (trimStr catText)).head? with _ | tok <;>
    rw [hc3] at h
  · simp [Bind.bind, Except.bind] at h
  simp only [Bind.bind, Except.bind] at h
  rcases hc4 : (selectDishDescr tr).head? with _ | descElm <;> rw [hc4] at h
  · simp [Bind.bind, Except.bind] at h
  simp only [Bind.bind, Except.bind, pure, Except.pure, Except.ok.injEq,
    Prod.mk.injEq] at h
  exact ⟨catElm, catText, descElm, rfl, hc2, h.1 ▸ hc3, rfl, h.2.symm⟩

/-! ## Claim C6 -/

/-- C6 counterexample: the dish row with description text
`Gulasch | Rind, Sauce, Kartoffeln` parses to the single ingredient
`Rind, Sauce, Kartoffeln` — the description is split on the bar only, so
the comma-separated tail stays one segment, not the three ingredients
the claim names. -/
theorem dish_example_single_ingredient :
    parse_menu_dish trDishRow
      = .ok ("Tellergericht",
          ⟨"Gulasch", ["Rind, Sauce, Kartoffeln"], [], none⟩) ∧
    (["Rind, Sauce, Kartoffeln"] : List String)
      ≠ ["Rind", "Sauce", "Kartoffeln"] :=
  ⟨rfl, by decide⟩

/-- C6 as amended: whenever `parse_menu_dish` succeeds, the dish name is
the trimmed first segment of the description text split on the literal
bar character and the ingredients are the remaining trimmed segments, in
order; in particular the row with description text
`Gulasch | Rind, Sauce, Kartoffeln` and no recognized label markers
yields the dish `Gulasch` with the single ingredient
`Rind, Sauce, Kartoffeln` and no labels. -/
theorem dish_description_split_on_bar (tr : Node) (cat : String)
    (d : FetchedDish) (h : parse_menu_dish tr = .ok (cat, d)) :
    (∃ descElm, (selectDishDescr tr).head? = some descElm ∧
      d.name
        = ((splitChar '|' (String.join descElm.directTexts)).map trimStr).headD "" ∧
      d.ingreds
        = ((splitChar '|' (String.join descElm.directTexts)).map trimStr).tail) ∧
    parse_menu_dish trDishRow
      = .ok ("Tellergericht",
          ⟨"Gulasch", ["Rind, Sauce, Kartoffeln"], [], none⟩) := by
  obtain ⟨catElm, catText, descElm, h1, h2, h3, h4, h5⟩ :=
    parse_menu_dish_ok_elim tr cat d h
  exact ⟨⟨descElm, h4, by rw [h5], by rw [h5]⟩, rfl⟩

/-- Witness for the amended C6, instantiated at the Gulasch row. -/
theorem dish_description_split_on_bar_witness :
    parse_menu_dish trDishRow
      = .ok ("Tellergericht",
          ⟨"Gulasch", ["Rind, Sauce, Kartoffeln"], [], none⟩) ∧
    (∃ descElm, (selectDishDescr trDishRow).head? = some descElm ∧
      ("Gulasch" : String)
        = ((splitChar '|' (String.join descElm.directTexts)).map trimStr).headD "" ∧
      (["Rind, Sauce, Kartoffeln"] : List String)
        = ((splitChar '|' (String.join descElm.directTexts)).map trimStr).tail) :=
  ⟨rfl,
   (dish_description_split_on_bar trDishRow "Tellergericht"
     ⟨"Gulasch", ["Rind, Sauce, Kartoffeln"], [], none⟩ rfl).1⟩

/-! ## Claim C7 -/

/-- C7 counterexample: the row whose price element's first text is
` 2,60 € ` (with surrounding whitespace) parses to exactly that string,
untrimmed — the source takes the text as-is, while the claim requires
the trimmed text. -/
theorem price_not_trimmed :
    (parse_menu_dish trPriceRow).map (fun p => p.2.price)
      = .ok (some " 2,60 € ") ∧
    some " 2,60 € " ≠ some (trimStr " 2,60 € ") :=
  ⟨rfl, by decide⟩

/-- C7 as amended: the parsed price is the first text of the first price
element, taken verbatim without trimming, when such a text exists, and
absent otherwise; the fetch pipeline's dish value carries it as an
explicitly optional field with both cases arising, while the `Dish` of
the menu model keeps price a required string and renders it
unconditionally. -/
theorem price_untrimmed_and_optional (tr : Node) (cat : String)
    (d : FetchedDish) (h : parse_menu_dish tr = .ok (cat, d)) :
    d.price = (selectMenuePrice tr).head?.bind (fun e => e.texts.head?) ∧
    (parse_menu_dish trPriceRow).map (fun p => p.2.price)
      = .ok (some " 2,60 € ") ∧
    (parse_menu_dish trDishRow).map (fun p => p.2.price) = .ok none ∧
    (∀ dm : Dish, ∃ s,
      Dish.fmt_html dm = s ++ " – <strong>" ++ dm.price ++ "</strong>") := by
  obtain ⟨catElm, catText, descElm, h1, h2, h3, h4, h5⟩ :=
    parse_menu_dish_ok_elim tr cat d h
  exact ⟨by rw [h5], rfl, rfl, fun dm => ⟨_, rfl⟩⟩

/-- Witness for the amended C7, instantiated at the priced row. -/
theorem price_untrimmed_and_optional_witness :
    parse_menu_dish trPriceRow
      = .ok ("Klassiker", ⟨"Erbsensuppe", [], [], some " 2,60 € "⟩) ∧
    (some " 2,60 € " : Option String)
      = (selectMenuePrice trPriceRow).head?.bind (fun e => e.texts.head?) :=
  ⟨rfl,
   (price_untrimmed_and_optional trPriceRow "Klassiker"
     ⟨"Erbsensuppe", [], [], some " 2,60 € "⟩ rfl).1⟩

/-! ## Order lemmas for the byte-wise string comparison -/

/-- Totality of the byte-wise lexicographic comparison. -/
theorem charListLe_total : ∀ as bs : List Char,
    charListLe as bs = true ∨ charListLe bs as = true
  | [], _ => Or.inl rfl
  | _ :: _, [] => Or.inr rfl
  | a :: as, b :: bs => by
    unfold charListLe
    rcases lt_trichotomy a b with h | h | h
    · exact Or.inl (by rw [if_pos h])
    · subst h
      simp only [if_neg (lt_irrefl a)]
      exact charListLe_total as bs
    · exact Or.inr (by rw [if_pos h])

/-- Transitivity of the byte-wise lexicographic comparison. -/
theorem charListLe_trans : ∀ as bs cs : List Char,
    charListLe as bs = true → charListLe bs cs = true →
      charListLe as cs = true
  | [], _, _, _, _ => rfl
  | _ :: _, [], _, h, _ => absurd h (by simp [charListLe])
  | _ :: _, _ :: _, [], _, h => absurd h (by simp [charListLe])
  | a :: as, b :: bs, c :: cs, h₁, h₂ => by
    unfold charListLe at h₁ h₂ ⊢
    rcases lt_trichotomy a b with hab | hab | hab
    · rcases lt_trichotomy b c with hbc | hbc | hbc
      · rw [if_pos (lt_trans hab hbc)]
      · subst hbc
        rw [if_pos hab]
      · rw [if_neg (lt_asymm hbc), if_pos hbc] at h₂
        simp at h₂
    · subst hab
      rw [if_neg (lt_irrefl a), if_neg (lt_irrefl a)] at h₁
      rcases lt_trichotomy a c with hac | hac | hac
      · rw [if_pos hac]
      · subst hac
        simp only [if_neg (lt_irrefl a)] at h₂ ⊢
        exact charListLe_trans as bs cs h₁ h₂
      · rw [if_neg (lt_asymm hac), if_pos hac] at h₂
        simp at h₂
    · rw [if_neg (lt_asymm hab), if_pos hab] at h₁
      simp at h₁

/-- Antisymmetry of the byte-wise lexicographic comparison. -/
theorem charListLe_antisymm : ∀ as bs : List Char,
    charListLe as bs = true → charListLe bs as = true → as = bs
  | [], [], _, _ => rfl
  | [], _ :: _, _, h => absurd h (by simp [charListLe])
  | _ :: _, [], h, _ => absurd h (by simp [charListLe])
  | a :: as, b :: bs, h₁, h₂ => by
    unfold charListLe at h₁ h₂
    rcases lt_trichotomy a b with hab | hab | hab
    · rw [if_neg (lt_asymm hab), if_pos hab] at h₂
      simp at h₂
    · subst hab
      rw [if_neg (lt_irrefl a), if_neg (lt_irrefl a)] at h₁ h₂
      rw [charListLe_antisymm as bs h₁ h₂]
    · rw [if_neg (lt_asymm hab), if_pos hab] at h₁
      simp at h₁

/-- Antisymmetry of the byte-wise string comparison. -/
theorem strLe_antisymm (a b : String) (h₁ : strLe a b = true)
    (h₂ : strLe b a = true) : a = b := by
  have h := charListLe_antisymm a.data b.data h₁ h₂
  exact congrArg String.mk h

/-! ## Claim C9 -/

/-- C9 counterexample: the menu with the empty category `B` next to the
non-empty category `A` renders to the rendering of the menu without `B`
followed by one extra blank line — the empty category emits no heading,
but it still counts in the separator bookkeeping
(`n + 1 < self.dishes.len()`), so its presence changes the output,
contradicting the claim that it contributes nothing. -/
theorem empty_category_adds_blank_line :
    Menu.fmt_html mWithEmpty = Menu.fmt_html mWithoutEmpty ++ "\n" ∧
    Menu.fmt_html mWithEmpty ≠ Menu.fmt_html mWithoutEmpty :=
  ⟨by decide, by decide⟩

/-- C9 as amended: the rendering lists categories in byte-wise
lexicographic order of their key independently of the source order (two
menus with permuted category lists, unique keys and the same extras
render identically), and a category with an empty dish list emits no
heading and no dish lines itself — but it still occupies an index in the
separator count, so its presence can leave an extra blank line after the
last rendered category (see the counterexample). -/
theorem fmt_html_sorted_and_skips_empty (m₁ m₂ : Menu)
    (hperm : m₁.dishes.Perm m₂.dishes)
    (hnodup : (m₁.dishes.map Prod.fst).Nodup)
    (hex : m₁.extras = m₂.extras) :
    m₁.fmt_html = m₂.fmt_html ∧
    (∀ total n categ, emitCategory total n categ [] = "") := by
  refine ⟨?_, fun total n categ => rfl⟩
  haveI htot : IsTotal (String × List Dish) dishLe :=
    ⟨fun a b => charListLe_total a.1.data b.1.data⟩
  haveI htrans : IsTrans (String × List Dish) dishLe :=
    ⟨fun a b c => charListLe_trans a.1.data b.1.data c.1.data⟩
  haveI hanti : IsAntisymm (String × List Dish)
      (fun a b => dishLe a b ∧ a.1 ≠ b.1) :=
    ⟨fun a b h₁ h₂ => absurd (strLe_antisymm a.1 b.1 h₁.1 h₂.1) h₁.2⟩
  have hs₁ := List.sorted_insertionSort dishLe m₁.dishes
  have hs₂ := List.sorted_insertionSort dishLe m₂.dishes
  have hp : (m₁.dishes.insertionSort dishLe).Perm
      (m₂.dishes.insertionSort dishLe) :=
    (List.perm_insertionSort dishLe m₁.dishes).trans
      (hperm.trans (List.perm_insertionSort dishLe m₂.dishes).symm)
  have hnd₁ : ((m₁.dishes.insertionSort dishLe).map Prod.fst).Nodup :=
    (((List.perm_insertionSort dishLe m₁.dishes).map Prod.fst).nodup_iff).mpr
      hnodup
  have hnd₂ : ((m₂.dishes.insertionSort dishLe).map Prod.fst).Nodup :=
    (((List.perm_insertionSort dishLe m₂.dishes).map Prod.fst).nodup_iff).mpr
      ((hperm.map Prod.fst).nodup_iff.mp hnodup)
  have hS₁ : (m₁.dishes.insertionSort dishLe).Pairwise
      (fun a b => dishLe a b ∧ a.1 ≠ b.1) :=
    hs₁.and (List.pairwise_map.mp hnd₁)
  have hS₂ : (m₂.dishes.insertionSort dishLe).Pairwise
      (fun a b => dishLe a b ∧ a.1 ≠ b.1) :=
    hs₂.and (List.pairwise_map.mp hnd₂)
  have hsort : m₁.dishes.insertionSort dishLe
      = m₂.dishes.insertionSort dishLe :=
    List.eq_of_perm_of_sorted hp hS₁ hS₂
  simp only [Menu.fmt_html]
  rw [hsort, hex, hperm.length_eq]

/-- Witness for the amended C9: the two concrete two-category menus that
permute each other's category order render identically. -/
theorem fmt_html_sorted_and_skips_empty_witness :
    mUnsorted.dishes.Perm mSorted.dishes ∧
    (mUnsorted.dishes.map Prod.fst).Nodup ∧
    Menu.fmt_html mUnsorted = Menu.fmt_html mSorted :=
  ⟨by decide, by decide,
   (fmt_html_sorted_and_skips_empty mUnsorted mSorted (by decide) (by decide)
     rfl).1⟩
